import Mathlib

namespace Skibidi

/-!
Verification development for the backend of the "skibidi-ai-hacknroll"
guessing game (Python sources: backend/app.py, backend/websocket_server.py,
backend/search_utils.py).

The Python sources are translated here as a shallow embedding:
dictionaries become structures, in-place mutation becomes explicit state
passing, wall-clock timestamps (Python floats from time.time()) are modelled
as rationals, and Python int() truncation is modelled explicitly.  Fallible
handlers return an outcome value together with the (possibly updated) state.
-/

/-- Python int() applied to a float/rational: truncation toward zero. -/
def pyInt (q : ℚ) : ℤ :=
  if q < 0 then -⌊-q⌋ else ⌊q⌋

/-! ## Data model (app.py)

A player dictionary as appended by join_lobby / join_random_public_lobby in
app.py, with the per-round fields guessCount and hasGuessedCorrectly that
select_topic resets and make_guess reads with .get defaults. -/

structure Player where
  playerId : String
  playerName : String
  role : Option String
  score : ℤ
  isConnected : Bool
  guessCount : ℕ
  hasGuessedCorrectly : Bool
  deriving DecidableEq

/-- The roundState dictionary initialised by select_topic in app.py. -/
structure RoundState where
  roundNumber : ℕ
  startTime : ℚ
  timeLimit : ℚ
  topic : String
  forbiddenWords : List String
  lastResultSentAt : ℚ
  resultCooldown : ℚ
  isActive : Bool
  deriving DecidableEq

/-- A lobby dictionary as created by create_lobby in app.py (the fields the
verified handlers read or write). -/
structure Lobby where
  lobbyId : String
  lobbyCode : String
  isPublic : Bool
  players : List Player
  status : String
  roundState : Option RoundState
  deriving DecidableEq

/-- get_current_round_time_remaining in app.py:
max(0, int(timeLimit - (now - startTime))). -/
def get_current_round_time_remaining (rs : RoundState) (now : ℚ) : ℤ :=
  max 0 (pyInt (rs.timeLimit - (now - rs.startTime)))

/-- get_cooldown_remaining in app.py.  The Python guard
「if not round_state.get('lastResultSentAt')」 treats the timestamp 0.0 as
falsy, so a zero timestamp short-circuits to 0. -/
def get_cooldown_remaining (rs : RoundState) (now : ℚ) : ℤ :=
  if rs.lastResultSentAt = 0 then 0
  else max 0 (pyInt (rs.resultCooldown - (now - rs.lastResultSentAt)))

/-! ## List helpers (first-match search and first-match update, the way the
Python loops over lobby['players'] behave) -/

/-- Update the first element satisfying p, leaving the rest untouched;
models the Python pattern of looping over a list, mutating the first match
and breaking. -/
def updateFirst (p : α → Bool) (f : α → α) : List α → List α
  | [] => []
  | x :: xs => if p x then f x :: xs else x :: updateFirst p f xs

/-- Remove the first element satisfying p; models list.pop(i) at the index
of the first match. -/
def removeFirst (p : α → Bool) : List α → List α
  | [] => []
  | x :: xs => if p x then xs else x :: removeFirst p xs

/-! ## Whole-word matching (search_utils.py)

validate_query_logic and _get_redaction_pattern both build regexes of the
shape \b<literal>\b with re.IGNORECASE.  We model the regex word characters
([A-Za-z0-9_], the ASCII fragment the game data uses), the word-boundary
assertion \b, and literal case-insensitive matching over lists of
characters. -/

/-- Regex word character: the ASCII \w class. -/
def isWordChar (c : Char) : Bool :=
  c.isAlphanum || c = '_'

/-- Whether position i of t (0-based) holds a word character; out-of-range
positions count as non-word, as at the edges of a regex subject. -/
def wordCharAt (t : List Char) (i : ℕ) : Bool :=
  match t.get? i with
  | some c => isWordChar c
  | none => false

/-- Whether the character just before position i is a word character. -/
def prevWordCharAt (t : List Char) (i : ℕ) : Bool :=
  if i = 0 then false else wordCharAt t (i - 1)

/-- The regex word-boundary assertion \b at position i of t. -/
def boundaryAt (t : List Char) (i : ℕ) : Bool :=
  prevWordCharAt t i != wordCharAt t i

/-- Lowercased character list of a string (Python str.lower on the ASCII
fragment). -/
def lc (s : String) : List Char :=
  s.toList.map Char.toLower

/-- The literal w (already lowercased) matches t at position i under
re.IGNORECASE: the slice of t starting at i, lowercased, equals w. -/
def sliceEqCI (w t : List Char) (i : ℕ) : Bool :=
  ((t.drop i).take w.length).map Char.toLower = w

/-- The regex \b<w>\b (w a lowercased literal) matches t at position i under
re.IGNORECASE.  Case folding does not change word-character-ness, so the
boundary tests run on the original characters. -/
def matchesAt (w t : List Char) (i : ℕ) : Bool :=
  sliceEqCI w t i && boundaryAt t i && boundaryAt t (i + w.length)

/-- re.search(\b<w>\b, t) with IGNORECASE succeeds: some position of t
matches. -/
def hasWholeWord (w t : List Char) : Bool :=
  (List.range (t.length + 1)).any (matchesAt w t)

/-- Result dictionary of validate_query_logic in search_utils.py. -/
structure ValidationResult where
  valid : Bool
  violations : List String
  deriving DecidableEq

/-- validate_query_logic in search_utils.py: empty query is valid;
otherwise the violations are exactly the forbidden words whose lowercased
literal occurs whole-word, case-insensitively, in the query. -/
def validate_query_logic (query : String) (forbidden : List String) :
    ValidationResult :=
  if query = "" then ⟨true, []⟩
  else
    let violations := forbidden.filter (fun w => hasWholeWord (lc w) (lc query))
    ⟨decide (violations = []), violations⟩

/-! ## Local redaction (search_utils.py: simple_redaction and
_get_redaction_pattern) -/

/-- Helper for pySplit: cur is the (reversed) token being accumulated. -/
def pySplitGo (cur : List Char) : List Char → List (List Char)
  | [] => if cur = [] then [] else [cur.reverse]
  | c :: rest =>
    if c.isWhitespace then
      if cur = [] then pySplitGo [] rest else cur.reverse :: pySplitGo [] rest
    else pySplitGo (c :: cur) rest

/-- Python str.split() with no argument: split on runs of whitespace,
dropping empty tokens. -/
def pySplit (t : List Char) : List (List Char) :=
  pySplitGo [] t

/-- One search-result dictionary as produced by google_search. -/
structure SearchResult where
  title : String
  snippet : String
  link : String
  displayLink : String
  deriving DecidableEq

/-- The word list of _get_redaction_pattern: the forbidden words together
with the lowercased query tokens, deduplicated, keeping only words longer
than 2 characters.  The source collects the words in a Python set, whose
iteration order is unspecified; the embedding fixes insertion order
(forbidden words first, query tokens after).  All theorems below are
independent of this order.  The source keeps the forbidden words in their
original case and relies on re.IGNORECASE; lowercasing them here is
equivalent under the case-insensitive matcher. -/
def patternWords (forbidden : List String) (query : String) :
    List (List Char) :=
  (((forbidden.map lc) ++ pySplit (lc query)).dedup).filter
    (fun w => 2 < w.length)

/-- The replacement text of simple_redaction. -/
def redactedToken : List Char :=
  "[REDACTED]".toList

/-- The re.sub scan: positions are tried left to right; at each position the
alternatives of \b(w1|w2|...)\b are tried in order; on a match the matched
span is replaced by the token and scanning resumes after the span.  fuel is
an upper bound on the number of scan steps (each step advances the position
by at least one for the nonempty pattern words the caller supplies). -/
def redactFrom (ws : List (List Char)) (t : List Char) :
    ℕ → ℕ → List Char
  | _, 0 => []
  | i, fuel + 1 =>
    if i < t.length then
      match ws.find? (fun w => matchesAt w t i) with
      | some w => redactedToken ++ redactFrom ws t (i + w.length) fuel
      | none => t.getD i ' ' :: redactFrom ws t (i + 1) fuel
    else []

/-- pattern.sub applied to one string field. -/
def redactString (ws : List (List Char)) (s : String) : String :=
  String.mk (redactFrom ws s.toList 0 (s.toList.length + 1))

/-- simple_redaction in search_utils.py: build the pattern; with no pattern
return the results untouched; otherwise substitute in title and snippet of
every result, copying the other fields. -/
def simple_redaction (results : List SearchResult) (forbidden : List String)
    (query : String) : List SearchResult :=
  let ws := patternWords forbidden query
  if ws.isEmpty then results
  else
    results.map (fun r =>
      { r with
        title := redactString ws r.title
        snippet := redactString ws r.snippet })

/-- Some pattern word matches somewhere in t. -/
def hasMatch (ws : List (List Char)) (t : List Char) : Bool :=
  (List.range (t.length + 1)).any (fun i => ws.any (fun w => matchesAt w t i))

/-! ## Starting a game (app.py start_game, websocket_server
assign_roles_for_round) -/

/-- The role-assignment loop of start_game in app.py:
「for i, player in enumerate(lobby['players']): player['role'] = roles[i]」.
The roles list passed in is random.shuffle(['searcher', 'guesser']), so it
has exactly two entries; indexing past its end raises IndexError, which the
loop result records as a false flag, with the players mutated so far kept
(the exception aborts the handler mid-loop). -/
def assignRolesLoop (roles : List String) :
    List Player → ℕ → List Player × Bool
  | [], _ => ([], true)
  | p :: rest, i =>
    match roles.get? i with
    | none => (p :: rest, false)
    | some r =>
      let res := assignRolesLoop roles rest (i + 1)
      ({ p with role := some r } :: res.1, res.2)

inductive StartGameResult where
  | lobbyNotFound : StartGameResult
  | notEnoughPlayers : StartGameResult
  | alreadyStarted : StartGameResult
  | indexError (aborted : Lobby) : StartGameResult
  | started (l : Lobby) : StartGameResult
  deriving DecidableEq

/-- start_game in app.py on a located lobby.  shuffledRoles stands for the
result of random.shuffle(['searcher', 'guesser']).  On success the status
becomes in_game (the gameConfig/gameId bookkeeping is not modelled); when
the role list runs out the unhandled IndexError leaves the partially
mutated lobby behind with status still waiting. -/
def start_game (l : Lobby) (shuffledRoles : List String) : StartGameResult :=
  if l.players.length < 2 then .notEnoughPlayers
  else if l.status ≠ "waiting" then .alreadyStarted
  else
    let res := assignRolesLoop shuffledRoles l.players 0
    if res.2 then .started { l with players := res.1, status := "in_game" }
    else .indexError { l with players := res.1 }

/-- A player of websocket_server.py (dataclass Player); roles are the Role
enum values. -/
structure WsPlayer where
  sid : String
  role : Option String
  name : String
  score : ℤ
  deriving DecidableEq

/-- assign_roles_for_round in websocket_server.py: with fewer than 2 players
return False (none); otherwise the first player of the shuffled list becomes
the searcher and every other player a guesser.  shuffledPlayers stands for
the result of random.shuffle(list(room.players.values())). -/
def assign_roles_for_round (shuffledPlayers : List WsPlayer) :
    Option (List WsPlayer) :=
  if shuffledPlayers.length < 2 then none
  else
    match shuffledPlayers with
    | [] => none
    | p :: rest =>
      some ({ p with role := some "searcher" } ::
        rest.map (fun q => { q with role := some "guesser" }))

/-- Number of players holding a given role. -/
def countRole (r : String) (ps : List WsPlayer) : ℕ :=
  (ps.filter (fun p => p.role = some r)).length

/-! ## Guessing (app.py make_guess) -/

/-- The response of the external guess verifier
(verify_guess_with_gemini). -/
structure GuessVerification where
  is_correct : Bool
  similarity_score : ℚ
  deriving DecidableEq

inductive GuessOutcome where
  | missingFields : GuessOutcome
  | lobbyNotFound : GuessOutcome
  | noActiveRound : GuessOutcome
  | playerNotFound : GuessOutcome
  | notGuesser : GuessOutcome
  | result (correct : Bool) (attempts : ℕ) : GuessOutcome
  deriving DecidableEq

def isPlayerId (uid : String) (q : Player) : Bool :=
  decide (q.playerId = uid)

def isSearcherRole (q : Player) : Bool :=
  decide (q.role = some "searcher")

def isGuesserRole (q : Player) : Bool :=
  decide (q.role = some "guesser")

/-- player['guessCount'] = player.get('guessCount', 0) + 1 -/
def incGuessCount (q : Player) : Player :=
  { q with guessCount := q.guessCount + 1 }

/-- player['hasGuessedCorrectly'] = True; player['score'] += round_score -/
def recordCorrect (points : ℤ) (q : Player) : Player :=
  { q with hasGuessedCorrectly := true, score := q.score + points }

/-- searcher['score'] += searcher_bonus -/
def addScore (points : ℤ) (q : Player) : Player :=
  { q with score := q.score + points }

/-- player['isConnected'] = b -/
def setConnected (b : Bool) (q : Player) : Player :=
  { q with isConnected := b }

def findPlayer (l : Lobby) (uid : String) : Option Player :=
  l.players.find? (isPlayerId uid)

def findSearcher (l : Lobby) : Option Player :=
  l.players.find? isSearcherRole

/-- The round score computed inside make_guess in app.py for a correct
guess:
base 100, speed bonus max(0, time_remaining), efficiency penalty
min(50, (guess_count - 1) * 10), first-try bonus 100 if guess_count == 1,
similarity bonus int(similarity_score * 50). -/
def roundScore (timeRemaining : ℤ) (guessCount : ℕ) (similarity : ℚ) : ℤ :=
  let base : ℤ := 100
  let speedBonus : ℤ := max 0 timeRemaining
  let efficiencyPenalty : ℤ := min 50 (((guessCount : ℤ) - 1) * 10)
  let firstTryBonus : ℤ := if guessCount = 1 then 100 else 0
  let similarityBonus : ℤ := pyInt (similarity * 50)
  base + speedBonus - efficiencyPenalty + firstTryBonus + similarityBonus

/-- The collaboration bonus awarded to the searcher:
max(0, int(time_remaining / 2)). -/
def searcherBonus (timeRemaining : ℤ) : ℤ :=
  max 0 (pyInt ((timeRemaining : ℚ) / 2))

/-- make_guess in app.py.  The verification parameter stands for the reply
of the external verifier, which the handler always consults once the role
and round checks pass (there is no already-correct rejection in this
handler).  The guess count is incremented before verification; on a correct
verdict hasGuessedCorrectly is set, the round score is added to the
guesser, the searcher (first player with role searcher, if any) receives
the collaboration bonus, and, when every guesser has guessed correctly, the
round is deactivated. -/
def make_guess (l : Lobby) (uid : String) (guess : String) (now : ℚ)
    (verification : GuessVerification) : GuessOutcome × Lobby :=
  if uid = "" ∨ guess = "" then (.missingFields, l)
  else
    match l.roundState with
    | none => (.noActiveRound, l)
    | some rs =>
      if rs.isActive = false then (.noActiveRound, l)
      else
        match findPlayer l uid with
        | none => (.playerNotFound, l)
        | some p =>
          if p.role ≠ some "guesser" then (.notGuesser, l)
          else
            let newCount := p.guessCount + 1
            let ps1 := updateFirst (isPlayerId uid) incGuessCount l.players
            let l1 := { l with players := ps1 }
            if verification.is_correct then
              let tr := get_current_round_time_remaining rs now
              let score := roundScore tr newCount verification.similarity_score
              let ps2 := updateFirst (isPlayerId uid) (recordCorrect score) ps1
              let ps3 :=
                updateFirst isSearcherRole (addScore (searcherBonus tr)) ps2
              let l3 := { l with players := ps3 }
              let allCorrect :=
                (ps3.filter isGuesserRole).all (fun q => q.hasGuessedCorrectly)
              let l4 :=
                if allCorrect then
                  { l3 with roundState := some { rs with isActive := false } }
                else l3
              (.result true newCount, l4)
            else (.result false newCount, l1)

/-! ## Sending a result to guessers (app.py send_result) -/

inductive SendResultOutcome where
  | missingFields : SendResultOutcome
  | lobbyNotFound : SendResultOutcome
  | noActiveRound : SendResultOutcome
  | notSearcher : SendResultOutcome
  | cooldownActive (remaining : ℤ) : SendResultOutcome
  | success : SendResultOutcome
  deriving DecidableEq

/-- send_result in app.py on a located lobby: requires an active round and
that the caller is the searcher; fails with the truncated remaining wait
while get_cooldown_remaining is positive; on success resets
lastResultSentAt to the current time (redaction and delivery of the results
are side effects on the transport, not on the lobby). -/
def send_result (l : Lobby) (uid : String) (query : String) (now : ℚ) :
    SendResultOutcome × Lobby :=
  if uid = "" ∨ query = "" then (.missingFields, l)
  else
    match l.roundState with
    | none => (.noActiveRound, l)
    | some rs =>
      if rs.isActive = false then (.noActiveRound, l)
      else if (l.players.any (fun p =>
          p.playerId = uid && p.role = some "searcher")) = false then
        (.notSearcher, l)
      else
        let remaining := get_cooldown_remaining rs now
        if 0 < remaining then (.cooldownActive remaining, l)
        else
          (.success,
           { l with roundState := some { rs with lastResultSentAt := now } })

/-! ## The search handler of app.py (searcher_make_search) -/

inductive AppSearchOutcome where
  | lobbyNotFound : AppSearchOutcome
  | noRound : AppSearchOutcome
  | emptyQuery : AppSearchOutcome
  | invalidQuery (violations : List String) : AppSearchOutcome
  | searched (query : String) : AppSearchOutcome
  deriving DecidableEq

/-- handle_searcher_make_search in app.py on a located lobby (query given
post-strip).  The handler validates against the round's forbiddenWords and
only then calls the search collaborator; it writes nothing to the lobby in
any branch — in particular, searching never touches lastResultSentAt. -/
def handle_searcher_make_search (l : Lobby) (query : String) :
    AppSearchOutcome × Lobby :=
  match l.roundState with
  | none => (.noRound, l)
  | some rs =>
    if query = "" then (.emptyQuery, l)
    else
      let v := validate_query_logic query rs.forbiddenWords
      if v.valid = false then (.invalidQuery v.violations, l)
      else (.searched query, l)

/-! ## websocket_server.py room state and handlers -/

def isSid (sid : String) (q : WsPlayer) : Bool :=
  decide (q.sid = sid)

def isWsGuesser (q : WsPlayer) : Bool :=
  decide (q.role = some "guesser")

def addWsScore (points : ℤ) (q : WsPlayer) : WsPlayer :=
  { q with score := q.score + points }

/-- The GameState dataclass of websocket_server.py (the fields the verified
handlers touch).  selected_topic models Optional[str] with the empty string
as the falsy None; guesses stores (player sid, guess, accepted). -/
structure WsRoom where
  players : List WsPlayer
  forbidden_words : List String
  selected_topic : String
  search_queries : List String
  last_search_time : ℚ
  search_cooldown : ℚ
  current_round : ℕ
  round_start_time : ℚ
  round_duration : ℚ
  round_active : Bool
  guesses : List (String × String × Bool)
  correct_guessers : List String
  deriving DecidableEq

inductive WsSearchOutcome where
  | notSearcher : WsSearchOutcome
  | roundInactive : WsSearchOutcome
  | emptyQuery : WsSearchOutcome
  | cooldownActive (remaining : ℚ) : WsSearchOutcome
  | invalidQuery (violations : List String) : WsSearchOutcome
  | searched (query : String) : WsSearchOutcome
  deriving DecidableEq

/-- handle_searcher_make_search in websocket_server.py: role check, active
check, empty check, search cooldown (skipped while last_search_time is 0),
validation against room.forbidden_words only — the already-used query
vocabulary in room.search_queries is never consulted — then the search is
performed, the query recorded and last_search_time advanced. -/
def ws_searcher_make_search (room : WsRoom) (isSearcher : Bool)
    (query : String) (now : ℚ) : WsSearchOutcome × WsRoom :=
  if isSearcher = false then (.notSearcher, room)
  else if room.round_active = false then (.roundInactive, room)
  else if query = "" then (.emptyQuery, room)
  else if 0 < room.last_search_time ∧
      now - room.last_search_time < room.search_cooldown then
    (.cooldownActive (room.search_cooldown - (now - room.last_search_time)),
     room)
  else
    let v := validate_query_logic query room.forbidden_words
    if v.valid = false then (.invalidQuery v.violations, room)
    else
      (.searched query,
       { room with
         search_queries := room.search_queries ++ [query]
         last_search_time := now })

/-- Python str.strip(): drop whitespace from both ends. -/
def pyStrip (t : List Char) : List Char :=
  ((t.dropWhile Char.isWhitespace).reverse.dropWhile Char.isWhitespace).reverse

/-- Python text.replace(pat, ''): delete the non-overlapping occurrences of
pat left to right. -/
def eraseAllGo (pat : List Char) : List Char → ℕ → List Char
  | _, 0 => []
  | [], _ => []
  | c :: rest, fuel + 1 =>
    if pat ≠ [] ∧ pat.isPrefixOf (c :: rest) then
      eraseAllGo pat ((c :: rest).drop pat.length) fuel
    else c :: eraseAllGo pat rest fuel

def eraseAll (pat t : List Char) : List Char :=
  eraseAllGo pat t t.length

/-- The guess acceptance test of handle_guesser_make_guess in
websocket_server.py, on the lowercased and stripped guess and topic: exact
match, containment either way, or equality after chaining
.replace('the ', '').replace('a ', '').replace('an ', ''). -/
def pyGuessMatch (g t : List Char) : Bool :=
  let strip3 := fun (x : List Char) =>
    eraseAll "an ".toList (eraseAll "a ".toList (eraseAll "the ".toList x))
  g = t || decide (List.IsInfix g t) || decide (List.IsInfix t g) ||
    strip3 g = strip3 t

inductive WsGuessOutcome where
  | notGuesser : WsGuessOutcome
  | roundInactive : WsGuessOutcome
  | emptyGuess : WsGuessOutcome
  | noTopic : WsGuessOutcome
  | alreadyCorrect : WsGuessOutcome
  | result (accepted : Bool) (points : ℤ) : WsGuessOutcome
  deriving DecidableEq

/-- end_round in websocket_server.py (the room mutations; timer
cancellation and broadcasting are transport effects). -/
def ws_end_round (room : WsRoom) : WsRoom :=
  if room.round_active = false then room
  else
    { room with
      round_active := false
      search_queries := []
      correct_guessers := [] }

/-- check_round_end_conditions in websocket_server.py. -/
def ws_check_round_end (room : WsRoom) (now : ℚ) : WsRoom :=
  if room.round_active = false then room
  else
    let guessers := room.players.filter isWsGuesser
    if 0 < guessers.length ∧
        room.correct_guessers.length = guessers.length then
      ws_end_round room
    else if room.round_duration ≤ now - room.round_start_time then
      ws_end_round room
    else room

/-- handle_guesser_make_guess in websocket_server.py: after the role,
active-round, empty-guess and topic checks, a guesser already recorded in
correct_guessers is rejected before the guess is evaluated, with the room
left untouched.  Otherwise the guess is recorded; a correct guess adds the
guesser to correct_guessers and awards int(100 * timeRemaining/duration)
plus 50 points, and the round-end conditions are checked. -/
def ws_guesser_make_guess (room : WsRoom) (sid : String) (guess : String)
    (now : ℚ) : WsGuessOutcome × WsRoom :=
  match room.players.find? (isSid sid) with
  | none => (.notGuesser, room)
  | some p =>
    if p.role ≠ some "guesser" then (.notGuesser, room)
    else if room.round_active = false then (.roundInactive, room)
    else if guess = "" then (.emptyGuess, room)
    else if room.selected_topic = "" then (.noTopic, room)
    else if room.correct_guessers.contains sid then (.alreadyCorrect, room)
    else
      let isCorrect :=
        pyGuessMatch (pyStrip (lc guess)) (pyStrip (lc room.selected_topic))
      let room1 := { room with guesses := room.guesses ++ [(sid, guess, isCorrect)] }
      if isCorrect then
        let timeRemaining :=
          max 0 (room.round_duration - (now - room.round_start_time))
        let points := pyInt (100 * (timeRemaining / room.round_duration)) + 50
        let ps := updateFirst (isSid sid) (addWsScore points) room1.players
        let room2 :=
          { room1 with
            correct_guessers := room1.correct_guessers ++ [sid]
            players := ps }
        (.result true points, ws_check_round_end room2 now)
      else (.result false 0, room1)

/-! ## Lobby registry, disconnect, join (app.py) -/

/-- The module-level dictionaries of app.py: lobbies (lobbyId → lobby) and
lobby_code_map (lobbyCode → lobbyId), both insertion-ordered with unique
keys, modelled as association lists. -/
structure Registry where
  lobbies : List (String × Lobby)
  lobbyCodeMap : List (String × String)
  deriving DecidableEq

def lookupLobby (reg : Registry) (lid : String) : Option Lobby :=
  (reg.lobbies.find? (fun e => e.1 = lid)).map (fun e => e.2)

def lookupCode (reg : Registry) (code : String) : Option String :=
  (reg.lobbyCodeMap.find? (fun e => e.1 = code)).map (fun e => e.2)

def lobbyContains (l : Lobby) (uid : String) : Bool :=
  l.players.any (fun p => p.playerId = uid)

/-- The per-lobby effect of on_disconnect in app.py once the loop has found
the player in this lobby: while waiting the player entry is popped and the
lobby is deleted (none) when no player remains; while in_game only the
player's isConnected flag is cleared; any other status leaves the lobby
untouched. -/
def disconnectLobby (l : Lobby) (uid : String) : Option Lobby :=
  if l.status = "waiting" then
    let ps := removeFirst (isPlayerId uid) l.players
    if 0 < ps.length then some { l with players := ps } else none
  else if l.status = "in_game" then
    let ps := updateFirst (isPlayerId uid) (setConnected false) l.players
    some { l with players := ps }
  else some l

/-- The lobby walk of on_disconnect: the first lobby (in dict insertion
order) containing the player is handled and the loop breaks; the second
component is the lobby code to drop from lobby_code_map when the lobby was
deleted. -/
def disconnectWalk (uid : String) :
    List (String × Lobby) → List (String × Lobby) × Option String
  | [] => ([], none)
  | (lid, l) :: rest =>
    if lobbyContains l uid then
      match disconnectLobby l uid with
      | some l2 => ((lid, l2) :: rest, none)
      | none => (rest, some l.lobbyCode)
    else
      let res := disconnectWalk uid rest
      ((lid, l) :: res.1, res.2)

/-- on_disconnect in app.py (the registry effects; socket-map cleanup and
broadcasts are transport effects).  lobby_code_map.pop removes the unique
entry of the deleted lobby's code. -/
def on_disconnect (reg : Registry) (uid : String) : Registry :=
  let res := disconnectWalk uid reg.lobbies
  let codeMap :=
    match res.2 with
    | some code => reg.lobbyCodeMap.filter (fun e => decide (e.1 ≠ code))
    | none => reg.lobbyCodeMap
  { lobbies := res.1, lobbyCodeMap := codeMap }

/-- The lobby effect of on_lobby_join in app.py: an existing player with the
given id is marked connected; the handler never appends to the players list
and never touches role or score. -/
def on_lobby_join_update (l : Lobby) (uid : String) : Lobby :=
  { l with players := updateFirst (isPlayerId uid) (setConnected true)
                        l.players }

/-- The request body of the HTTP join-lobby endpoint.  The handler reads
only playerName; a userId field sent by the client is ignored. -/
structure JoinRequest where
  playerName : String
  userId : Option String
  deriving DecidableEq

inductive JoinOutcome where
  | lobbyNotFound : JoinOutcome
  | gameInProgress : JoinOutcome
  | joined (uid : String) : JoinOutcome
  deriving DecidableEq

/-- join_lobby in app.py on a located lobby.  freshUid stands for the
generate_user_id result (retried until unique within the lobby).  A new
player entry is appended unconditionally: there is no lookup of any
existing player, and the request's userId plays no part. -/
def join_lobby (l : Lobby) (req : JoinRequest) (freshUid : String) :
    JoinOutcome × Lobby :=
  if l.status ≠ "waiting" then (.gameInProgress, l)
  else
    let name := if req.playerName = "" then freshUid else req.playerName
    (.joined freshUid,
     { l with players := l.players ++
        [{ playerId := freshUid, playerName := name, role := none,
           score := 0, isConnected := false, guessCount := 0,
           hasGuessedCorrectly := false }] })

/-! ## The per-room timer (app.py timer_broadcast_thread) -/

def setLobby (reg : Registry) (lid : String) (l : Lobby) : Registry :=
  { reg with lobbies :=
      reg.lobbies.map (fun e => if e.1 = lid then (lid, l) else e) }

inductive TimerStep where
  | stopped : TimerStep
  | ends (reason : String) (reg : Registry) : TimerStep
  | ticked (reg : Registry) : TimerStep
  deriving DecidableEq

/-- One iteration of the while loop of timer_broadcast_thread in app.py:
the thread exits when its lobby is gone from the registry, when the lobby
has no roundState, or when the round is inactive; a tick that computes zero
time remaining deactivates the round, emits round:ended with reason
time_expired and exits; otherwise the thread broadcasts the sync message
and sleeps for the next tick. -/
def timer_tick (reg : Registry) (lid : String) (now : ℚ) : TimerStep :=
  match lookupLobby reg lid with
  | none => .stopped
  | some l =>
    match l.roundState with
    | none => .stopped
    | some rs =>
      if rs.isActive = false then .stopped
      else
        let tr := get_current_round_time_remaining rs now
        if tr ≤ 0 then
          .ends "time_expired"
            (setLobby reg lid
              { l with roundState := some { rs with isActive := false } })
        else .ticked reg

/-! ## Concrete fixtures for witnesses and counterexamples -/

def c2searcher : Player :=
  { playerId := "S1", playerName := "Searcher", role := some "searcher",
    score := 7, isConnected := true, guessCount := 0,
    hasGuessedCorrectly := false }

def c2guesser : Player :=
  { playerId := "G1", playerName := "Guesser", role := some "guesser",
    score := 0, isConnected := true, guessCount := 0,
    hasGuessedCorrectly := false }

def c2round : RoundState :=
  { roundNumber := 1, startTime := 0, timeLimit := 120, topic := "Pizza",
    forbiddenWords := ["pizza"], lastResultSentAt := 0, resultCooldown := 30,
    isActive := true }

def c2lobby : Lobby :=
  { lobbyId := "L1", lobbyCode := "ABC123", isPublic := true,
    players := [c2searcher, c2guesser], status := "in_game",
    roundState := some c2round }

def c1player (n : String) : Player :=
  { playerId := n, playerName := n, role := none, score := 0,
    isConnected := true, guessCount := 0, hasGuessedCorrectly := false }

def c1lobby : Lobby :=
  { lobbyId := "L2", lobbyCode := "XYZ789", isPublic := true,
    players := [c1player "A", c1player "B", c1player "C"],
    status := "waiting", roundState := none }

/-! ## C3: the result-send cooldown -/

def c3round : RoundState :=
  { roundNumber := 1, startTime := 90, timeLimit := 120, topic := "Pizza",
    forbiddenWords := ["pizza"], lastResultSentAt := 100,
    resultCooldown := 30, isActive := true }

def c3lobby : Lobby :=
  { lobbyId := "L3", lobbyCode := "COOLDN", isPublic := true,
    players := [{ playerId := "S1", playerName := "Searcher",
                  role := some "searcher", score := 0, isConnected := true,
                  guessCount := 0, hasGuessedCorrectly := false },
                { playerId := "G1", playerName := "Guesser",
                  role := some "guesser", score := 0, isConnected := true,
                  guessCount := 0, hasGuessedCorrectly := false }],
    status := "in_game", roundState := some c3round }

def c4guesser : Player :=
  { playerId := "G1", playerName := "Guesser", role := some "guesser",
    score := 285, isConnected := true, guessCount := 1,
    hasGuessedCorrectly := true }

def c4lobby : Lobby :=
  { lobbyId := "L4", lobbyCode := "RPT123", isPublic := true,
    players := [c2searcher, c4guesser], status := "in_game",
    roundState := some c2round }

def c4wsplayer : WsPlayer :=
  { sid := "SID1", role := some "guesser", name := "G", score := 150 }

def c4wsroom : WsRoom :=
  { players := [c4wsplayer], forbidden_words := ["bitcoin"],
    selected_topic := "Bitcoin", search_queries := [],
    last_search_time := 0, search_cooldown := 30, current_round := 1,
    round_start_time := 0, round_duration := 120, round_active := true,
    guesses := [], correct_guessers := ["SID1"] }

def c5player (n : String) : Player :=
  { playerId := n, playerName := n, role := none, score := 0,
    isConnected := true, guessCount := 0, hasGuessedCorrectly := false }

def c5lobby2 : Lobby :=
  { lobbyId := "LID5", lobbyCode := "CODE5A", isPublic := true,
    players := [c5player "A", c5player "B"], status := "waiting",
    roundState := none }

def c5lobby1 : Lobby :=
  { lobbyId := "LID5", lobbyCode := "CODE5B", isPublic := true,
    players := [c5player "A"], status := "waiting", roundState := none }

def c5reg2 : Registry :=
  { lobbies := [("LID5", c5lobby2)], lobbyCodeMap := [("CODE5A", "LID5")] }

def c5reg1 : Registry :=
  { lobbies := [("LID5", c5lobby1)], lobbyCodeMap := [("CODE5B", "LID5")] }

def c6lobby : Lobby :=
  { lobbyId := "LID6", lobbyCode := "CODE6", isPublic := true,
    players := [c2searcher, c2guesser], status := "in_game",
    roundState := some c2round }

def c6reg : Registry :=
  { lobbies := [("LID6", c6lobby)], lobbyCodeMap := [("CODE6", "LID6")] }

def c7round : RoundState :=
  { roundNumber := 1, startTime := 0, timeLimit := 120, topic := "Pizza",
    forbiddenWords := ["pizza"], lastResultSentAt := 0, resultCooldown := 30,
    isActive := true }

def c7lobby : Lobby :=
  { lobbyId := "LID7", lobbyCode := "CODE7", isPublic := true,
    players := [c2searcher, c2guesser], status := "in_game",
    roundState := some c7round }

def c7reg : Registry :=
  { lobbies := [("LID7", c7lobby)], lobbyCodeMap := [("CODE7", "LID7")] }

/-! ## C8: query validation -/

def c8room : WsRoom :=
  { players := [], forbidden_words := ["pizza"], selected_topic := "Pizza",
    search_queries := ["cheese"], last_search_time := 0,
    search_cooldown := 30, current_round := 1, round_start_time := 0,
    round_duration := 120, round_active := true, guesses := [],
    correct_guessers := [] }

def c9lobby : Lobby :=
  { lobbyId := "L9", lobbyCode := "JOIN99", isPublic := true,
    players := [{ playerId := "player123", playerName := "Player",
                  role := none, score := 0, isConnected := true,
                  guessCount := 0, hasGuessedCorrectly := false }],
    status := "waiting", roundState := none }

/-- Whether position i of t lies inside some whole-word occurrence of a
pattern term. -/
def coveredByOcc (ws : List (List Char)) (t : List Char) (i : ℕ) : Bool :=
  ws.any (fun w => (List.range (t.length + 1)).any (fun j =>
    matchesAt w t j && decide (j ≤ i) && decide (i < j + w.length)))

def c10result : SearchResult :=
  { title := "Go programming language", snippet := "Go is a great language",
    link := "https://example.com", displayLink := "example.com" }

theorem pyInt_of_nonneg (q : ℚ) (h : 0 ≤ q) : pyInt q = ⌊q⌋ := by
  unfold pyInt
  simp [not_lt.mpr h]

theorem pyInt_nonpos_of_nonpos (q : ℚ) (h : q ≤ 0) : pyInt q ≤ 0 := by
  unfold pyInt
  rcases lt_or_eq_of_le h with h1 | h1
  · simp only [if_pos h1, neg_nonpos]
    exact Int.floor_nonneg.mpr (by linarith)
  · subst h1; norm_num

theorem time_remaining_nonneg (rs : RoundState) (now : ℚ) :
    0 ≤ get_current_round_time_remaining rs now := le_max_left 0 _

theorem updateFirst_length (p : α → Bool) (f : α → α) (l : List α) :
    (updateFirst p f l).length = l.length := by
  induction l with
  | nil => rfl
  | cons x xs ih =>
    by_cases h : p x <;> simp [updateFirst, h, ih]

theorem removeFirst_length (p : α → Bool) (l : List α)
    (h : ∃ x ∈ l, p x) : (removeFirst p l).length + 1 = l.length := by
  induction l with
  | nil => simp at h
  | cons x xs ih =>
    by_cases hx : p x
    · simp [removeFirst, hx]
    · obtain ⟨y, hy, hpy⟩ := h
      rcases List.mem_cons.mp hy with hy1 | hy1
      · subst hy1; exact absurd hpy (by simp [hx])
      · simp [removeFirst, hx, ih ⟨y, hy1, hpy⟩]

theorem removeFirst_decompose (p : α → Bool) (l : List α)
    (h : ∃ x ∈ l, p x) :
    ∃ a x b, l = a ++ x :: b ∧ p x = true ∧ (∀ y ∈ a, p y = false) ∧
      removeFirst p l = a ++ b := by
  induction l with
  | nil => simp at h
  | cons z zs ih =>
    by_cases hz : p z
    · exact ⟨[], z, zs, by simp, hz, by simp, by simp [removeFirst, hz]⟩
    · obtain ⟨y, hy, hpy⟩ := h
      rcases List.mem_cons.mp hy with hy1 | hy1
      · subst hy1; exact absurd hpy (by simp [hz])
      · obtain ⟨a, x, b, hl, hpx, ha, hrm⟩ := ih ⟨y, hy1, hpy⟩
        refine ⟨z :: a, x, b, by simp [hl], hpx, ?_, ?_⟩
        · intro w hw
          rcases List.mem_cons.mp hw with hw1 | hw1
          · subst hw1; simpa using hz
          · exact ha w hw1
        · simp [removeFirst, hz, hrm]

theorem validate_valid_iff (query : String) (forbidden : List String)
    (hq : query ≠ "") :
    (validate_query_logic query forbidden).valid = false ↔
      ∃ w ∈ forbidden, hasWholeWord (lc w) (lc query) = true := by
  unfold validate_query_logic
  simp only [if_neg hq, decide_eq_false_iff_not, decide_eq_true_eq]
  constructor
  · intro h
    rcases List.exists_mem_of_ne_nil _ h with ⟨w, hw⟩
    exact ⟨w, (List.mem_filter.mp hw).1, (List.mem_filter.mp hw).2⟩
  · intro ⟨w, hw, hmatch⟩ hnil
    have : w ∈ List.filter (fun w => hasWholeWord (lc w) (lc query)) forbidden :=
      List.mem_filter.mpr ⟨hw, hmatch⟩
    rw [hnil] at this
    exact absurd this (List.not_mem_nil w)

theorem validate_violations_eq (query : String) (forbidden : List String)
    (hq : query ≠ "") :
    (validate_query_logic query forbidden).violations =
      forbidden.filter (fun w => hasWholeWord (lc w) (lc query)) := by
  unfold validate_query_logic
  simp [if_neg hq]

/-! ## Supporting lemmas about first-match search and update -/

theorem find?_split (P : α → Bool) (a : List α) (p : α) (b : List α)
    (ha : ∀ x ∈ a, P x = false) (hp : P p = true) :
    List.find? P (a ++ p :: b) = some p := by
  induction a with
  | nil => simp [List.find?, hp]
  | cons x xs ih =>
    have hx := ha x (by simp)
    simp only [List.cons_append, List.find?, hx]
    exact ih (fun y hy => ha y (by simp [hy]))

theorem updateFirst_split (P : α → Bool) (f : α → α) (a : List α) (p : α)
    (b : List α) (ha : ∀ x ∈ a, P x = false) (hp : P p = true) :
    updateFirst P f (a ++ p :: b) = a ++ f p :: b := by
  induction a with
  | nil => simp [updateFirst, hp]
  | cons x xs ih =>
    have hx := ha x (by simp)
    simp only [List.cons_append, updateFirst, hx, Bool.false_eq_true,
      if_false]
    exact congrArg (x :: ·) (ih (fun y hy => ha y (by simp [hy])))

theorem find?_updateFirst_map (P : α → Bool) (f : α → α) (l : List α)
    (hf : ∀ x, P (f x) = P x) :
    List.find? P (updateFirst P f l) = (List.find? P l).map f := by
  induction l with
  | nil => simp [updateFirst]
  | cons x xs ih =>
    by_cases hx : P x
    · simp [updateFirst, hx, List.find?, hf]
    · simp only [updateFirst, if_neg hx, List.find?,
        Bool.not_eq_true] at ih ⊢
      simp only [hx]
      simpa using ih

theorem find?_updateFirst_indep (P Q : α → Bool) (f : α → α) (l : List α)
    (hf : ∀ x, Q (f x) = Q x)
    (hPQ : ∀ x ∈ l, Q x = true → P x = false) :
    List.find? Q (updateFirst P f l) = List.find? Q l := by
  induction l with
  | nil => rfl
  | cons x xs ih =>
    by_cases hx : P x
    · have hQx : Q x = false := by
        by_contra h
        have := hPQ x (by simp) (by revert h; cases Q x <;> simp)
        simp [hx] at this
      simp [updateFirst, hx, List.find?, hf, hQx]
    · simp only [updateFirst, if_neg hx, List.find?]
      by_cases hQx : Q x
      · simp [hQx]
      · simp only [Bool.not_eq_true] at hQx
        simp only [hQx]
        exact ih (fun y hy => hPQ y (by simp [hy]))

theorem find?_congr_center (P : α → Bool) (a b : List α) (c c2 : α)
    (hc : P c = false) (hc2 : P c2 = false) :
    List.find? P (a ++ c :: b) = List.find? P (a ++ c2 :: b) := by
  induction a with
  | nil => simp [List.find?, hc, hc2]
  | cons x xs ih =>
    simp only [List.cons_append, List.find?]
    cases P x <;> simp [ih]

/-- Shared behaviour of make_guess in app.py on a correct guess: the exact
score deltas for the guesser and the searcher.  Note that no hypothesis
mentions p.hasGuessedCorrectly: the handler behaves identically whether or
not the guesser had already guessed correctly. -/
theorem make_guess_correct_behavior
    (l : Lobby) (uid guess : String) (now : ℚ)
    (verification : GuessVerification) (rs : RoundState)
    (a b : List Player) (p s : Player)
    (hsplit : l.players = a ++ p :: b)
    (ha : ∀ x ∈ a, x.playerId ≠ uid)
    (hb : ∀ x ∈ b, x.playerId ≠ uid)
    (hid : p.playerId = uid)
    (hrole : p.role = some "guesser")
    (hrs : l.roundState = some rs)
    (hactive : rs.isActive = true)
    (hcorrect : verification.is_correct = true)
    (hsim0 : 0 ≤ verification.similarity_score)
    (huid : uid ≠ "") (hguess : guess ≠ "")
    (hs : findSearcher l = some s) :
    (make_guess l uid guess now verification).1 =
      GuessOutcome.result true (p.guessCount + 1) ∧
    findPlayer (make_guess l uid guess now verification).2 uid =
      some { p with
        guessCount := p.guessCount + 1
        hasGuessedCorrectly := true
        score := p.score +
          (100 + max 0 (get_current_round_time_remaining rs now)
            - min 50 ((((p.guessCount + 1 : ℕ) : ℤ) - 1) * 10)
            + (if p.guessCount + 1 = 1 then 100 else 0)
            + ⌊verification.similarity_score * 50⌋) } ∧
    findSearcher (make_guess l uid guess now verification).2 =
      some { s with
             score := s.score +
               max 0 ⌊((get_current_round_time_remaining rs now : ℚ)) / 2⌋ } ∧
    roundScore 45 1 (4 / 5) = 285 := by
  have hP : isPlayerId uid p = true := by
    simp [isPlayerId, hid]
  have haP : ∀ x ∈ a, isPlayerId uid x = false :=
    fun x hx => by simp [isPlayerId, ha x hx]
  have hfind : findPlayer l uid = some p := by
    unfold findPlayer
    rw [hsplit]
    exact find?_split _ a p b haP hP
  have hnm : ¬ (uid = "" ∨ guess = "") := by simp [huid, hguess]
  have hrole2 : ¬ p.role ≠ some "guesser" := by simp [hrole]
  have htr0 : (0 : ℤ) ≤ get_current_round_time_remaining rs now :=
    time_remaining_nonneg rs now
  set tr := get_current_round_time_remaining rs now with htr
  set score := roundScore tr (p.guessCount + 1) verification.similarity_score
    with hscoredef
  have hps1 : updateFirst (isPlayerId uid) incGuessCount l.players
      = a ++ incGuessCount p :: b := by
    rw [hsplit]
    exact updateFirst_split _ _ a p b haP hP
  have hP1 : isPlayerId uid (incGuessCount p) = true := by
    simp [isPlayerId, incGuessCount, hid]
  have hps2 : updateFirst (isPlayerId uid) (recordCorrect score)
      (a ++ incGuessCount p :: b)
      = a ++ recordCorrect score (incGuessCount p) :: b :=
    updateFirst_split _ _ a _ b haP hP1
  have hP2 : isPlayerId uid (recordCorrect score (incGuessCount p)) = true := by
    simp [isPlayerId, recordCorrect, incGuessCount, hid]
  have hcenterS :
      isSearcherRole (recordCorrect score (incGuessCount p)) = false := by
    simp [isSearcherRole, recordCorrect, incGuessCount, hrole]
  have hPQ : ∀ x ∈ a ++ recordCorrect score (incGuessCount p) :: b,
      isPlayerId uid x = true → isSearcherRole x = false := by
    intro x hx hQx
    rcases List.mem_append.mp hx with hxa | hxc
    · exact absurd hQx (by simp [isPlayerId, ha x hxa])
    · rcases List.mem_cons.mp hxc with hxc | hxb
      · subst hxc; exact hcenterS
      · exact absurd hQx (by simp [isPlayerId, hb x hxb])
  have hgid : ∀ x : Player,
      isPlayerId uid (addScore (searcherBonus tr) x) = isPlayerId uid x :=
    fun x => by simp [isPlayerId, addScore]
  have hfind3P : List.find? (isPlayerId uid)
      (updateFirst isSearcherRole (addScore (searcherBonus tr))
        (a ++ recordCorrect score (incGuessCount p) :: b))
      = some (recordCorrect score (incGuessCount p)) := by
    rw [find?_updateFirst_indep _ _ _ _ hgid hPQ]
    exact find?_split _ a _ b haP hP2
  have hSkeep : ∀ x : Player,
      isSearcherRole (addScore (searcherBonus tr) x) = isSearcherRole x :=
    fun x => by simp [isSearcherRole, addScore]
  have hfind3S : List.find? isSearcherRole
      (updateFirst isSearcherRole (addScore (searcherBonus tr))
        (a ++ recordCorrect score (incGuessCount p) :: b))
      = some (addScore (searcherBonus tr) s) := by
    rw [find?_updateFirst_map _ _ _ hSkeep]
    have hcS : isSearcherRole p = false := by simp [isSearcherRole, hrole]
    rw [find?_congr_center isSearcherRole a b _ p hcenterS hcS]
    have hsl := hs
    unfold findSearcher at hsl
    rw [hsplit] at hsl
    rw [hsl]
    rfl
  have hout : make_guess l uid guess now verification =
      (GuessOutcome.result true (p.guessCount + 1),
       if ((updateFirst isSearcherRole (addScore (searcherBonus tr))
             (a ++ recordCorrect score (incGuessCount p) :: b)).filter
             isGuesserRole).all (fun q => q.hasGuessedCorrectly) then
         { l with
           players := updateFirst isSearcherRole (addScore (searcherBonus tr))
             (a ++ recordCorrect score (incGuessCount p) :: b)
           roundState := some { rs with isActive := false } }
       else
         { l with
           players := updateFirst isSearcherRole (addScore (searcherBonus tr))
             (a ++ recordCorrect score (incGuessCount p) :: b) }) := by
    unfold make_guess
    rw [if_neg hnm, hrs]
    simp only [hactive, Bool.true_eq_false, Bool.false_eq_true, if_false,
      hfind, if_neg hrole2, hcorrect, if_true]
    rw [hps1, hps2]
  have hscore_eq : score =
      100 + max 0 tr - min 50 ((((p.guessCount + 1 : ℕ) : ℤ) - 1) * 10)
      + (if p.guessCount + 1 = 1 then 100 else 0)
      + ⌊verification.similarity_score * 50⌋ := by
    rw [hscoredef]
    unfold roundScore
    rw [pyInt_of_nonneg _ (mul_nonneg hsim0 (by norm_num))]
  have hbonus_eq : searcherBonus tr = max 0 ⌊((tr : ℚ)) / 2⌋ := by
    unfold searcherBonus
    rw [pyInt_of_nonneg _ (div_nonneg (by exact_mod_cast htr0) (by norm_num))]
  refine ⟨by rw [hout], ?_, ?_, ?_⟩
  · simp only [hout]
    unfold findPlayer
    rw [apply_ite Lobby.players, ite_self, hfind3P]
    simp [recordCorrect, incGuessCount, hscore_eq]
  · simp only [hout]
    unfold findSearcher
    rw [apply_ite Lobby.players, ite_self, hfind3S]
    simp [addScore, hbonus_eq]
  · norm_num [roundScore, pyInt]

/-- C2: for a correct guess in an active round with similarity in the unit
interval, the guesser's score grows by exactly
base 100 + speed bonus max(0, timeRemaining) − efficiency penalty
min(50, (guessCount−1)·10) + first-try bonus (100 when guessCount = 1)
+ similarity bonus ⌊similarity·50⌋ (this guess counted in guessCount), the
searcher's score concurrently grows by max(0, ⌊timeRemaining/2⌋), and the
worked example timeRemaining 45, guessCount 1, similarity 0.8 yields 285
points. -/
theorem c2_make_guess_scoring
    (l : Lobby) (uid guess : String) (now : ℚ)
    (verification : GuessVerification) (rs : RoundState)
    (a b : List Player) (p s : Player)
    (hsplit : l.players = a ++ p :: b)
    (ha : ∀ x ∈ a, x.playerId ≠ uid)
    (hb : ∀ x ∈ b, x.playerId ≠ uid)
    (hid : p.playerId = uid)
    (hrole : p.role = some "guesser")
    (hrs : l.roundState = some rs)
    (hactive : rs.isActive = true)
    (hcorrect : verification.is_correct = true)
    (hsim0 : 0 ≤ verification.similarity_score)
    (huid : uid ≠ "") (hguess : guess ≠ "")
    (hs : findSearcher l = some s) :
    (make_guess l uid guess now verification).1 =
      GuessOutcome.result true (p.guessCount + 1) ∧
    findPlayer (make_guess l uid guess now verification).2 uid =
      some { p with
        guessCount := p.guessCount + 1
        hasGuessedCorrectly := true
        score := p.score +
          (100 + max 0 (get_current_round_time_remaining rs now)
            - min 50 ((((p.guessCount + 1 : ℕ) : ℤ) - 1) * 10)
            + (if p.guessCount + 1 = 1 then 100 else 0)
            + ⌊verification.similarity_score * 50⌋) } ∧
    findSearcher (make_guess l uid guess now verification).2 =
      some { s with
             score := s.score +
               max 0 ⌊((get_current_round_time_remaining rs now : ℚ)) / 2⌋ } ∧
    roundScore 45 1 (4 / 5) = 285 :=
  make_guess_correct_behavior l uid guess now verification rs a b p s hsplit
    ha hb hid hrole hrs hactive hcorrect hsim0 huid hguess hs

theorem c2_make_guess_scoring_witness :
    (make_guess c2lobby "G1" "pizza" 75 ⟨true, 4 / 5⟩).1 =
      GuessOutcome.result true (c2guesser.guessCount + 1) ∧
    findPlayer (make_guess c2lobby "G1" "pizza" 75 ⟨true, 4 / 5⟩).2 "G1" =
      some { c2guesser with
             guessCount := c2guesser.guessCount + 1
             hasGuessedCorrectly := true
             score := c2guesser.score +
               (100 + max 0 (get_current_round_time_remaining c2round 75)
                 - min 50 ((((c2guesser.guessCount + 1 : ℕ) : ℤ) - 1) * 10)
                 + (if c2guesser.guessCount + 1 = 1 then 100 else 0)
                 + ⌊((4 : ℚ) / 5) * 50⌋) } ∧
    findSearcher (make_guess c2lobby "G1" "pizza" 75 ⟨true, 4 / 5⟩).2 =
      some { c2searcher with
             score := c2searcher.score +
               max 0 ⌊((get_current_round_time_remaining c2round 75 : ℚ)) / 2⌋ } ∧
    roundScore 45 1 (4 / 5) = 285 :=
  c2_make_guess_scoring c2lobby "G1" "pizza" 75 ⟨true, 4 / 5⟩ c2round
    [c2searcher] [] c2guesser c2searcher rfl (by decide) (by decide) rfl rfl
    rfl rfl rfl (by norm_num) (by decide) (by decide) (by decide)

/-! ## C1: role assignment -/

theorem assignRolesLoop_snd_false (roles : List String) :
    ∀ (ps : List Player) (i : ℕ), ps ≠ [] → roles.length < i + ps.length →
      (assignRolesLoop roles ps i).2 = false := by
  intro ps
  induction ps with
  | nil => intro i h _; exact absurd rfl h
  | cons p rest ih =>
    intro i _ hlen
    unfold assignRolesLoop
    cases hget : roles.get? i with
    | none => rfl
    | some r =>
      have hi : i < roles.length := List.get?_eq_some.mp hget |>.1
      have hrest : rest ≠ [] := by
        intro hnil
        subst hnil
        simp at hlen
        omega
      have : roles.length < (i + 1) + rest.length := by
        simp only [List.length_cons] at hlen
        omega
      simpa using ih (i + 1) hrest this

/-- C1: the spec's role assignment (one uniformly chosen Searcher, all other
players Guessers, never failing for n ≥ 2) is implemented by
assign_roles_for_round in websocket_server.py, proved in the second
conjunct; start_game in app.py instead indexes a two-element shuffled role
list by player position, so for every waiting lobby with at least three
players it aborts with an IndexError — the first conjunct exhibits the
crash the claim says cannot happen. -/
theorem c1_start_game_roles
    (l : Lobby) (roles : List String)
    (hperm : roles.Perm ["searcher", "guesser"])
    (hwaiting : l.status = "waiting")
    (hn : 3 ≤ l.players.length) :
    (∃ aborted, start_game l roles = .indexError aborted) ∧
    (∀ ps : List WsPlayer, 2 ≤ ps.length →
      ∃ ps2, assign_roles_for_round ps = some ps2 ∧
        countRole "searcher" ps2 = 1 ∧
        countRole "guesser" ps2 = ps.length - 1 ∧
        ps2.length = ps.length) := by
  constructor
  · have hroles : roles.length = 2 := hperm.length_eq
    have hne : l.players ≠ [] := by
      intro hnil; rw [hnil] at hn; simp at hn
    have hfail : (assignRolesLoop roles l.players 0).2 = false :=
      assignRolesLoop_snd_false roles l.players 0 hne (by omega)
    refine ⟨{ l with players := (assignRolesLoop roles l.players 0).1 }, ?_⟩
    unfold start_game
    rw [if_neg (by omega), if_neg (by simp [hwaiting])]
    simp [hfail]
  · intro ps hps
    match ps with
    | [] => simp at hps
    | p :: rest =>
      refine ⟨{ p with role := some "searcher" } ::
        rest.map (fun q => { q with role := some "guesser" }), ?_, ?_, ?_, ?_⟩
      · unfold assign_roles_for_round
        rw [if_neg (by simpa using hps)]
      · simp [countRole, List.filter_map]
      · simp [countRole, List.filter_map]
      · simp

theorem c1_start_game_roles_witness :
    (∃ aborted, start_game c1lobby ["searcher", "guesser"] =
      .indexError aborted) ∧
    (∀ ps : List WsPlayer, 2 ≤ ps.length →
      ∃ ps2, assign_roles_for_round ps = some ps2 ∧
        countRole "searcher" ps2 = 1 ∧
        countRole "guesser" ps2 = ps.length - 1 ∧
        ps2.length = ps.length) :=
  c1_start_game_roles c1lobby ["searcher", "guesser"] (List.Perm.refl _)
    rfl (by decide)

theorem search_handler_pure (l : Lobby) (q : String) :
    (handle_searcher_make_search l q).2 = l := by
  cases h2 : l.roundState with
  | none => simp [handle_searcher_make_search, h2]
  | some rs2 =>
    simp only [handle_searcher_make_search, h2]
    split
    · rfl
    · split <;> rfl

theorem send_result_reduce (l : Lobby) (uid query : String) (now : ℚ)
    (rs : RoundState)
    (hrs : l.roundState = some rs)
    (hactive : rs.isActive = true)
    (hsearcher : (l.players.any (fun p =>
      p.playerId = uid && p.role = some "searcher")) = true)
    (huid : uid ≠ "") (hquery : query ≠ "") :
    send_result l uid query now =
      if 0 < get_cooldown_remaining rs now then
        (SendResultOutcome.cooldownActive (get_cooldown_remaining rs now), l)
      else
        (SendResultOutcome.success,
         { l with roundState := some { rs with lastResultSentAt := now } }) := by
  have hnm : ¬ (uid = "" ∨ query = "") := by simp [huid, hquery]
  unfold send_result
  rw [if_neg hnm, hrs]
  simp only [hactive, Bool.true_eq_false, Bool.false_eq_true, if_false,
    hsearcher, if_false]

/-- C3 counterexample: a second send 29.5 seconds after the last one — half
a second before the 30-second cooldown has fully elapsed — succeeds and
resets the cooldown clock, because get_cooldown_remaining truncates the
remaining 0.5 seconds to 0; the claim says any send before the full
interval has elapsed must fail. -/
theorem c3_cooldown_counterexample :
    (259 : ℚ) / 2 - c3round.lastResultSentAt < c3round.resultCooldown ∧
    (send_result c3lobby "S1" "q" (259 / 2)).1 = SendResultOutcome.success ∧
    ((send_result c3lobby "S1" "q" (259 / 2)).2.roundState.map
      (fun rs => rs.lastResultSentAt)) = some (259 / 2) := by
  have hred := send_result_reduce c3lobby "S1" "q" (259 / 2) c3round rfl rfl
    (by decide) (by decide) (by decide)
  have hcool : get_cooldown_remaining c3round (259 / 2) = 0 := by
    unfold get_cooldown_remaining
    rw [if_neg (by norm_num [c3round])]
    have : pyInt (c3round.resultCooldown -
        ((259 : ℚ) / 2 - c3round.lastResultSentAt)) = 0 := by
      unfold pyInt
      rw [if_neg (by norm_num [c3round])]
      norm_num [c3round]
    rw [this]
    simp
  refine ⟨by norm_num [c3round], ?_, ?_⟩ <;>
    rw [hred, hcool, if_neg (by norm_num)] <;> rfl

/-- C3 (amended): during an active round, a second send by the searcher
fails with the rate-limit error carrying the truncated remaining wait, and
leaves the lobby (in particular lastResultSentAt) unchanged, exactly when
at least one whole second of cooldown remains, i.e.
int(resultCooldown − elapsed) ≥ 1; once the truncated remainder is zero —
in particular whenever the full interval has elapsed — the send succeeds
and lastResultSentAt resets to the current time; performing a search never
modifies the lobby, so it never advances or consumes the cooldown clock. -/
theorem c3_send_result_cooldown
    (l : Lobby) (uid query : String) (now : ℚ) (rs : RoundState)
    (hrs : l.roundState = some rs)
    (hactive : rs.isActive = true)
    (hsearcher : (l.players.any (fun p =>
      p.playerId = uid && p.role = some "searcher")) = true)
    (hlast : rs.lastResultSentAt ≠ 0)
    (huid : uid ≠ "") (hquery : query ≠ "") :
    (1 ≤ pyInt (rs.resultCooldown - (now - rs.lastResultSentAt)) →
      (send_result l uid query now).1 =
        SendResultOutcome.cooldownActive
          (pyInt (rs.resultCooldown - (now - rs.lastResultSentAt))) ∧
      (send_result l uid query now).2 = l) ∧
    (pyInt (rs.resultCooldown - (now - rs.lastResultSentAt)) ≤ 0 →
      (send_result l uid query now).1 = SendResultOutcome.success ∧
      (send_result l uid query now).2 =
        { l with roundState := some { rs with lastResultSentAt := now } }) ∧
    (rs.resultCooldown ≤ now - rs.lastResultSentAt →
      (send_result l uid query now).1 = SendResultOutcome.success) ∧
    (∀ q : String, (handle_searcher_make_search l q).2 = l) := by
  have hcool : get_cooldown_remaining rs now =
      max 0 (pyInt (rs.resultCooldown - (now - rs.lastResultSentAt))) := by
    unfold get_cooldown_remaining
    rw [if_neg hlast]
  have hred : ∀ r : ℚ, send_result l uid query r =
      (if 0 < get_cooldown_remaining rs r then
        (SendResultOutcome.cooldownActive (get_cooldown_remaining rs r), l)
       else
        (SendResultOutcome.success,
         { l with roundState := some { rs with lastResultSentAt := r } })) :=
    fun r => send_result_reduce l uid query r rs hrs hactive hsearcher huid
      hquery
  refine ⟨?_, ?_, ?_, fun q => search_handler_pure l q⟩
  · intro h1
    have hmax : max 0 (pyInt (rs.resultCooldown - (now - rs.lastResultSentAt)))
        = pyInt (rs.resultCooldown - (now - rs.lastResultSentAt)) :=
      max_eq_right (by omega)
    rw [hred now, hcool, hmax, if_pos (by omega)]
    exact ⟨rfl, rfl⟩
  · intro h0
    have hmax : max 0 (pyInt (rs.resultCooldown - (now - rs.lastResultSentAt)))
        = 0 := max_eq_left h0
    rw [hred now, hcool, hmax]
    simp
  · intro hfull
    have h0 : pyInt (rs.resultCooldown - (now - rs.lastResultSentAt)) ≤ 0 :=
      pyInt_nonpos_of_nonpos _ (by linarith)
    have hmax : max 0 (pyInt (rs.resultCooldown - (now - rs.lastResultSentAt)))
        = 0 := max_eq_left h0
    rw [hred now, hcool, hmax]
    simp

theorem c3_send_result_cooldown_witness :
    ((send_result c3lobby "S1" "q" 105).1 =
       SendResultOutcome.cooldownActive
         (pyInt (c3round.resultCooldown - (105 - c3round.lastResultSentAt))) ∧
     (send_result c3lobby "S1" "q" 105).2 = c3lobby) ∧
    ((send_result c3lobby "S1" "q" 131).1 = SendResultOutcome.success ∧
     (send_result c3lobby "S1" "q" 131).2 =
       { c3lobby with
         roundState := some { c3round with lastResultSentAt := 131 } }) ∧
    (handle_searcher_make_search c3lobby "cheap flights").2 = c3lobby := by
  have h105 := c3_send_result_cooldown c3lobby "S1" "q" 105 c3round rfl rfl
    (by decide) (by norm_num [c3round]) (by decide) (by decide)
  have h131 := c3_send_result_cooldown c3lobby "S1" "q" 131 c3round rfl rfl
    (by decide) (by norm_num [c3round]) (by decide) (by decide)
  refine ⟨h105.1 ?_, h131.2.1 ?_, h105.2.2.2 "cheap flights"⟩
  · show (1 : ℤ) ≤ pyInt ((30 : ℚ) - (105 - 100))
    norm_num [pyInt]
  · show pyInt ((30 : ℚ) - (131 - 100)) ≤ 0
    norm_num [pyInt]

/-! ## C4: repeated correct guesses -/

/-- C4: the websocket handler rejects a guesser already recorded as correct
before the guess is evaluated, leaving the room completely unchanged
(second conjunct, the behaviour the claim describes); make_guess in app.py
has no such check — its first conjunct shows that for a guesser whose
hasGuessedCorrectly is already true a further correct guess is processed
fully: the verifier verdict is consumed, guessCount increments and the
score strictly increases instead of staying unchanged. -/
theorem c4_already_correct_guess
    (l : Lobby) (uid guess : String) (now : ℚ)
    (verification : GuessVerification) (rs : RoundState)
    (a b : List Player) (p s : Player)
    (hsplit : l.players = a ++ p :: b)
    (ha : ∀ x ∈ a, x.playerId ≠ uid)
    (hb : ∀ x ∈ b, x.playerId ≠ uid)
    (hid : p.playerId = uid)
    (hrole : p.role = some "guesser")
    (hprev : p.hasGuessedCorrectly = true)
    (hrs : l.roundState = some rs)
    (hactive : rs.isActive = true)
    (hcorrect : verification.is_correct = true)
    (hsim0 : 0 ≤ verification.similarity_score)
    (huid : uid ≠ "") (hguess : guess ≠ "")
    (hs : findSearcher l = some s) :
    ((make_guess l uid guess now verification).1 =
       GuessOutcome.result true (p.guessCount + 1) ∧
     ∃ q, findPlayer (make_guess l uid guess now verification).2 uid =
         some q ∧
       q.guessCount = p.guessCount + 1 ∧ p.score < q.score) ∧
    (∀ (room : WsRoom) (sid guess2 : String) (now2 : ℚ) (p2 : WsPlayer),
      room.players.find? (isSid sid) = some p2 →
      p2.role = some "guesser" →
      room.round_active = true →
      guess2 ≠ "" → room.selected_topic ≠ "" →
      sid ∈ room.correct_guessers →
      ws_guesser_make_guess room sid guess2 now2 =
        (WsGuessOutcome.alreadyCorrect, room)) := by
  constructor
  · have h := make_guess_correct_behavior l uid guess now verification rs a b
      p s hsplit ha hb hid hrole hrs hactive hcorrect hsim0 huid hguess hs
    refine ⟨h.1, _, h.2.1, rfl, ?_⟩
    have hfloor : (0 : ℤ) ≤ ⌊verification.similarity_score * 50⌋ :=
      Int.floor_nonneg.mpr (mul_nonneg hsim0 (by norm_num))
    have htr : (0 : ℤ) ≤ max 0 (get_current_round_time_remaining rs now) :=
      le_max_left 0 _
    have hmin : min 50 ((((p.guessCount + 1 : ℕ) : ℤ) - 1) * 10) ≤ 50 :=
      min_le_left _ _
    have hite : (0 : ℤ) ≤ (if p.guessCount + 1 = 1 then 100 else 0) := by
      split <;> norm_num
    simp only [Player.mk.injEq]
    linarith
  · intro room sid guess2 now2 p2 hfind hrole2 hactive2 hg2 htopic hmem
    unfold ws_guesser_make_guess
    rw [hfind]
    dsimp only
    rw [if_neg (show ¬ p2.role ≠ some "guesser" by simp [hrole2])]
    rw [if_neg (show ¬ room.round_active = false by rw [hactive2]; simp)]
    rw [if_neg hg2]
    rw [if_neg htopic]
    rw [if_pos (show room.correct_guessers.contains sid = true from
      List.elem_eq_true_of_mem hmem)]

theorem c4_already_correct_guess_witness :
    ((make_guess c4lobby "G1" "pizza" 75 ⟨true, 4 / 5⟩).1 =
       GuessOutcome.result true (c4guesser.guessCount + 1) ∧
     ∃ q, findPlayer (make_guess c4lobby "G1" "pizza" 75 ⟨true, 4 / 5⟩).2 "G1" =
         some q ∧
       q.guessCount = c4guesser.guessCount + 1 ∧ c4guesser.score < q.score) ∧
    ws_guesser_make_guess c4wsroom "SID1" "bitcoin" 10 =
      (WsGuessOutcome.alreadyCorrect, c4wsroom) := by
  have h := c4_already_correct_guess c4lobby "G1" "pizza" 75 ⟨true, 4 / 5⟩
    c2round [c2searcher] [] c4guesser c2searcher rfl (by decide) (by decide)
    rfl rfl rfl rfl rfl rfl (by norm_num) (by decide) (by decide) (by decide)
  exact ⟨h.1, h.2 c4wsroom "SID1" "bitcoin" 10 c4wsplayer (by decide) rfl rfl
    (by decide) (by decide) (by decide)⟩

/-! ## C5 and C6: disconnect while waiting / in game -/

theorem disconnectWalk_split (uid : String) (ra rb : List (String × Lobby))
    (lid : String) (l : Lobby)
    (hra : ∀ e ∈ ra, lobbyContains e.2 uid = false)
    (hl : lobbyContains l uid = true) :
    disconnectWalk uid (ra ++ (lid, l) :: rb) =
      match disconnectLobby l uid with
      | some l2 => (ra ++ (lid, l2) :: rb, none)
      | none => (ra ++ rb, some l.lobbyCode) := by
  induction ra with
  | nil =>
    simp only [List.nil_append, disconnectWalk, hl, if_true]
  | cons e ra ih =>
    have he := hra e (by simp)
    simp only [List.cons_append, disconnectWalk, he, Bool.false_eq_true,
      if_false, List.append_eq]
    rw [ih (fun x hx => hra x (by simp [hx]))]
    cases disconnectLobby l uid <;> simp

theorem map_updateFirst (p : α → Bool) (f : α → α) (g : α → β) (l : List α)
    (h : ∀ x, g (f x) = g x) :
    (updateFirst p f l).map g = l.map g := by
  induction l with
  | nil => rfl
  | cons x xs ih =>
    by_cases hx : p x <;> simp [updateFirst, hx, ih, h]

/-- C5: in a waiting room, a disconnect of a present player removes exactly
the first entry carrying that player id (the count drops by exactly one and
every other entry is kept in order), and the room together with its lobby
code is deleted from the registry exactly when no player remains. -/
theorem c5_waiting_disconnect
    (reg : Registry) (uid lid : String) (l : Lobby)
    (ra rb : List (String × Lobby))
    (hsplit : reg.lobbies = ra ++ (lid, l) :: rb)
    (hra : ∀ e ∈ ra, lobbyContains e.2 uid = false)
    (hkeys : ∀ e ∈ ra ++ rb, e.1 ≠ lid)
    (hcontains : lobbyContains l uid = true)
    (hwaiting : l.status = "waiting") :
    ((removeFirst (isPlayerId uid) l.players).length + 1
       = l.players.length) ∧
    (∃ xa pl xb, l.players = xa ++ pl :: xb ∧ pl.playerId = uid ∧
      (∀ y ∈ xa, y.playerId ≠ uid) ∧
      removeFirst (isPlayerId uid) l.players = xa ++ xb) ∧
    (removeFirst (isPlayerId uid) l.players ≠ [] →
      lookupLobby (on_disconnect reg uid) lid =
        some { l with players := removeFirst (isPlayerId uid) l.players } ∧
      lookupCode (on_disconnect reg uid) l.lobbyCode =
        lookupCode reg l.lobbyCode) ∧
    (removeFirst (isPlayerId uid) l.players = [] →
      lookupLobby (on_disconnect reg uid) lid = none ∧
      lookupCode (on_disconnect reg uid) l.lobbyCode = none) := by
  have hex : ∃ x ∈ l.players, isPlayerId uid x = true := by
    simpa [lobbyContains, isPlayerId] using hcontains
  have hlen := removeFirst_length (isPlayerId uid) l.players hex
  have hdec := removeFirst_decompose (isPlayerId uid) l.players hex
  refine ⟨hlen, ?_, ?_, ?_⟩
  · obtain ⟨xa, pl, xb, h1, h2, h3, h4⟩ := hdec
    exact ⟨xa, pl, xb, h1, by simpa [isPlayerId] using h2,
      fun y hy => by simpa [isPlayerId] using h3 y hy, h4⟩
  · intro hne
    have hlobby : disconnectLobby l uid =
        some { l with players := removeFirst (isPlayerId uid) l.players } := by
      unfold disconnectLobby
      rw [if_pos hwaiting, if_pos (by
        cases h : removeFirst (isPlayerId uid) l.players with
        | nil => exact absurd h hne
        | cons x xs => simp)]
    constructor
    · unfold on_disconnect lookupLobby
      rw [hsplit, disconnectWalk_split uid ra rb lid l hra hcontains, hlobby]
      simp only
      rw [find?_split (fun e => decide (e.1 = lid)) ra _ rb
        (fun e he => by simpa using hkeys e (by simp [he]))
        (by simp)]
      rfl
    · unfold on_disconnect lookupCode
      rw [hsplit, disconnectWalk_split uid ra rb lid l hra hcontains, hlobby]
  · intro hnil
    have hlobby : disconnectLobby l uid = none := by
      unfold disconnectLobby
      rw [if_pos hwaiting, if_neg (by rw [hnil]; simp)]
    constructor
    · unfold on_disconnect lookupLobby
      rw [hsplit, disconnectWalk_split uid ra rb lid l hra hcontains, hlobby]
      simp only
      rw [List.find?_eq_none.mpr (fun e he => by
        simpa using hkeys e (by
          rcases List.mem_append.mp he with h1 | h1 <;>
            simp [h1]))]
      rfl
    · unfold on_disconnect lookupCode
      rw [hsplit, disconnectWalk_split uid ra rb lid l hra hcontains, hlobby]
      simp only
      rw [List.find?_eq_none.mpr (fun e he => by
        have := (List.mem_filter.mp he).2
        simpa using this)]
      rfl

theorem c5_waiting_disconnect_witness :
    (lookupLobby (on_disconnect c5reg2 "A") "LID5" =
       some { c5lobby2 with
              players := removeFirst (isPlayerId "A") c5lobby2.players } ∧
     lookupCode (on_disconnect c5reg2 "A") c5lobby2.lobbyCode =
       lookupCode c5reg2 c5lobby2.lobbyCode) ∧
    (lookupLobby (on_disconnect c5reg1 "A") "LID5" = none ∧
     lookupCode (on_disconnect c5reg1 "A") c5lobby1.lobbyCode = none) ∧
    (removeFirst (isPlayerId "A") c5lobby2.players).length + 1 =
      c5lobby2.players.length := by
  have h2 := c5_waiting_disconnect c5reg2 "A" "LID5" c5lobby2 [] [] rfl
    (by decide) (by decide) (by decide) rfl
  have h1 := c5_waiting_disconnect c5reg1 "A" "LID5" c5lobby1 [] [] rfl
    (by decide) (by decide) (by decide) rfl
  exact ⟨h2.2.2.1 (by decide), h1.2.2.2 (by decide), h2.1⟩

/-- C6: in an in-game room, a disconnect never removes the player: the
registry keeps the room (and its code mapping) with the same player list
except that the first entry with the disconnecting id has isConnected set
to false — length, ids, roles, scores and guess counts all unchanged — and
a later socket join with the same player id restores the very same player
record with isConnected back to true (same role and score, no reset). -/
theorem c6_ingame_disconnect_reconnect
    (reg : Registry) (uid lid : String) (l : Lobby)
    (ra rb : List (String × Lobby)) (pa pb : List Player) (pl : Player)
    (hsplit : reg.lobbies = ra ++ (lid, l) :: rb)
    (hra : ∀ e ∈ ra, lobbyContains e.2 uid = false)
    (hkeys : ∀ e ∈ ra ++ rb, e.1 ≠ lid)
    (hpl : l.players = pa ++ pl :: pb)
    (hpa : ∀ x ∈ pa, x.playerId ≠ uid)
    (hplid : pl.playerId = uid)
    (hingame : l.status = "in_game") :
    lookupLobby (on_disconnect reg uid) lid =
      some { l with players := pa ++ setConnected false pl :: pb } ∧
    (pa ++ setConnected false pl :: pb).length = l.players.length ∧
    ((pa ++ setConnected false pl :: pb).map
        (fun q => (q.playerId, q.role, q.score, q.guessCount))
      = l.players.map (fun q => (q.playerId, q.role, q.score, q.guessCount))) ∧
    lookupCode (on_disconnect reg uid) l.lobbyCode =
      lookupCode reg l.lobbyCode ∧
    findPlayer (on_lobby_join_update
        { l with players := pa ++ setConnected false pl :: pb } uid) uid =
      some { pl with isConnected := true } := by
  have hPpl : isPlayerId uid pl = true := by simp [isPlayerId, hplid]
  have hpaB : ∀ x ∈ pa, isPlayerId uid x = false :=
    fun x hx => by simp [isPlayerId, hpa x hx]
  have hcontains : lobbyContains l uid = true := by
    rw [lobbyContains, hpl]
    simp only [List.any_eq_true]
    exact ⟨pl, by simp, by simp [hplid]⟩
  have hlobby : disconnectLobby l uid =
      some { l with players := pa ++ setConnected false pl :: pb } := by
    unfold disconnectLobby
    rw [if_neg (by simp [hingame]), if_pos hingame, hpl,
      updateFirst_split _ _ pa pl pb hpaB hPpl]
  refine ⟨?_, by simp [hpl], by simp [hpl, setConnected], ?_, ?_⟩
  · unfold on_disconnect lookupLobby
    rw [hsplit, disconnectWalk_split uid ra rb lid l hra hcontains, hlobby]
    simp only
    rw [find?_split (fun e => decide (e.1 = lid)) ra _ rb
      (fun e he => by simpa using hkeys e (by simp [he]))
      (by simp)]
    rfl
  · unfold on_disconnect lookupCode
    rw [hsplit, disconnectWalk_split uid ra rb lid l hra hcontains, hlobby]
  · unfold on_lobby_join_update findPlayer
    simp only
    rw [updateFirst_split _ _ pa (setConnected false pl) pb hpaB
      (by simp [isPlayerId, setConnected, hplid])]
    rw [find?_split (isPlayerId uid) pa _ pb hpaB
      (by simp [isPlayerId, setConnected, hplid])]
    rfl

theorem c6_ingame_disconnect_reconnect_witness :
    lookupLobby (on_disconnect c6reg "S1") "LID6" =
      some { c6lobby with
             players := [] ++ setConnected false c2searcher :: [c2guesser] } ∧
    ([] ++ setConnected false c2searcher :: [c2guesser]).length =
      c6lobby.players.length ∧
    (([] ++ setConnected false c2searcher :: [c2guesser]).map
        (fun (q : Player) => (q.playerId, q.role, q.score, q.guessCount))
      = c6lobby.players.map
          (fun (q : Player) => (q.playerId, q.role, q.score, q.guessCount))) ∧
    lookupCode (on_disconnect c6reg "S1") c6lobby.lobbyCode =
      lookupCode c6reg c6lobby.lobbyCode ∧
    findPlayer (on_lobby_join_update
        { c6lobby with
          players := [] ++ setConnected false c2searcher :: [c2guesser] }
        "S1") "S1" =
      some { c2searcher with isConnected := true } :=
  c6_ingame_disconnect_reconnect c6reg "S1" "LID6" c6lobby [] [] []
    [c2guesser] c2searcher rfl (by decide) (by decide) rfl (by decide) rfl
    rfl

/-! ## C7: the per-room timer -/

/-- C7: a timer tick taken once wall-clock elapsed time has reached
timeLimitSeconds deactivates the round and announces round:ended with
reason time_expired (no hypothesis mentions any guess, so this holds with
zero guesses submitted); and a tick finding the room gone from the
registry, the round state missing, or the round inactive exits the loop —
the thread never keeps running in any of those states. -/
theorem c7_timer_tick (reg : Registry) (lid : String) (now : ℚ) :
    (∀ l rs, lookupLobby reg lid = some l → l.roundState = some rs →
      rs.isActive = true → rs.timeLimit ≤ now - rs.startTime →
      timer_tick reg lid now =
        TimerStep.ends "time_expired"
          (setLobby reg lid
            { l with roundState := some { rs with isActive := false } })) ∧
    (lookupLobby reg lid = none → timer_tick reg lid now = .stopped) ∧
    (∀ l, lookupLobby reg lid = some l → l.roundState = none →
      timer_tick reg lid now = .stopped) ∧
    (∀ l rs, lookupLobby reg lid = some l → l.roundState = some rs →
      rs.isActive = false → timer_tick reg lid now = .stopped) := by
  refine ⟨?_, ?_, ?_, ?_⟩
  · intro l rs hl hrs hact hexp
    unfold timer_tick
    rw [hl]
    dsimp only
    rw [hrs]
    dsimp only
    rw [if_neg (by simp [hact])]
    have h0 : get_current_round_time_remaining rs now ≤ 0 := by
      unfold get_current_round_time_remaining
      have := pyInt_nonpos_of_nonpos (rs.timeLimit - (now - rs.startTime))
        (by linarith)
      omega
    rw [if_pos h0]
  · intro h
    simp [timer_tick, h]
  · intro l hl hrs
    unfold timer_tick
    rw [hl]
    dsimp only
    rw [hrs]
  · intro l rs hl hrs hact
    unfold timer_tick
    rw [hl]
    dsimp only
    rw [hrs]
    dsimp only
    rw [if_pos (by simp [hact])]

theorem c7_timer_tick_witness :
    timer_tick c7reg "LID7" 200 =
      TimerStep.ends "time_expired"
        (setLobby c7reg "LID7"
          { c7lobby with roundState := some { c7round with isActive := false } }) ∧
    timer_tick c7reg "MISSING" 200 = TimerStep.stopped :=
  ⟨(c7_timer_tick c7reg "LID7" 200).1 c7lobby c7round rfl rfl rfl
      (by norm_num [c7round]),
   (c7_timer_tick c7reg "MISSING" 200).2.1 rfl⟩

/-- C8 counterexample: in a round whose already-used vocabulary contains
the word cheese (it was a previous search query), the searcher submits the
query cheese again; the claim requires rejection before the search
collaborator runs, but validation consults only forbidden_words, reports
the query valid, and the handler proceeds to perform the search. -/
theorem c8_used_vocabulary_counterexample :
    "cheese" ∈ c8room.search_queries ∧
    hasWholeWord (lc "cheese") (lc "cheese") = true ∧
    (validate_query_logic "cheese" c8room.forbidden_words).valid = true ∧
    (ws_searcher_make_search c8room true "cheese" 100).1 =
      WsSearchOutcome.searched "cheese" := by
  refine ⟨by decide, by decide, by decide, ?_⟩
  unfold ws_searcher_make_search
  rw [if_neg (by decide)]
  rw [if_neg (by decide)]
  rw [if_neg (by decide)]
  rw [if_neg (by simp [c8room])]
  rw [if_neg (by decide)]

/-- C8 (amended): a query containing a forbidden term of the round —
matched whole-word and case-insensitively — is rejected by the app.py
search handler before the search collaborator is invoked, with valid =
false and the violations listing exactly the matching forbidden terms, and
the lobby untouched; a query with no forbidden-term match proceeds to the
search.  Only roundState.forbiddenWords is consulted: terms merely drawn
from the round's already-used vocabulary are not checked. -/
theorem c8_forbidden_query_rejected
    (l : Lobby) (rs : RoundState) (query : String)
    (hrs : l.roundState = some rs) (hq : query ≠ "") :
    ((validate_query_logic query rs.forbiddenWords).valid = false ↔
       ∃ w ∈ rs.forbiddenWords, hasWholeWord (lc w) (lc query) = true) ∧
    (validate_query_logic query rs.forbiddenWords).violations =
      rs.forbiddenWords.filter (fun w => hasWholeWord (lc w) (lc query)) ∧
    ((∃ w ∈ rs.forbiddenWords, hasWholeWord (lc w) (lc query) = true) →
      handle_searcher_make_search l query =
        (AppSearchOutcome.invalidQuery
          (rs.forbiddenWords.filter (fun w => hasWholeWord (lc w) (lc query))),
         l)) ∧
    ((∀ w ∈ rs.forbiddenWords, hasWholeWord (lc w) (lc query) = false) →
      handle_searcher_make_search l query =
        (AppSearchOutcome.searched query, l)) := by
  refine ⟨validate_valid_iff query rs.forbiddenWords hq,
    validate_violations_eq query rs.forbiddenWords hq, ?_, ?_⟩
  · intro hex
    unfold handle_searcher_make_search
    rw [hrs]
    dsimp only
    rw [if_neg hq]
    rw [if_pos ((validate_valid_iff query rs.forbiddenWords hq).mpr hex)]
    rw [validate_violations_eq query rs.forbiddenWords hq]
  · intro hall
    unfold handle_searcher_make_search
    rw [hrs]
    dsimp only
    rw [if_neg hq]
    rw [if_neg (fun hfalse =>
      by
        obtain ⟨w, hw, hmatch⟩ :=
          (validate_valid_iff query rs.forbiddenWords hq).mp hfalse
        rw [hall w hw] at hmatch
        exact Bool.false_ne_true hmatch)]

theorem c8_forbidden_query_rejected_witness :
    handle_searcher_make_search c3lobby "best pizza recipes" =
      (AppSearchOutcome.invalidQuery ["pizza"], c3lobby) ∧
    handle_searcher_make_search c3lobby "italian flatbread" =
      (AppSearchOutcome.searched "italian flatbread", c3lobby) := by
  have h1 := c8_forbidden_query_rejected c3lobby c3round "best pizza recipes"
    rfl (by decide)
  have h2 := c8_forbidden_query_rejected c3lobby c3round "italian flatbread"
    rfl (by decide)
  constructor
  · have hinv := h1.2.2.1 ⟨"pizza", by decide, by decide⟩
    have hf : c3round.forbiddenWords.filter
        (fun w => hasWholeWord (lc w) (lc "best pizza recipes")) =
          ["pizza"] := by decide
    rw [hf] at hinv
    exact hinv
  · exact h2.2.2.2 (by decide)

/-! ## C9: join idempotence -/

theorem updateFirst_idem (p : α → Bool) (f : α → α) (l : List α)
    (hidem : ∀ x, f (f x) = f x) (hp : ∀ x, p (f x) = p x) :
    updateFirst p f (updateFirst p f l) = updateFirst p f l := by
  induction l with
  | nil => rfl
  | cons x xs ih =>
    by_cases hx : p x
    · simp [updateFirst, hx, hp, hidem]
    · simp [updateFirst, hx, ih]

/-- C9: the HTTP join endpoint of app.py is not idempotent by player id —
it never reads the request's userId and appends a freshly generated player
entry on every call to a waiting lobby, so the player list always grows by
exactly one (first two conjuncts).  The socket-level lobby:join handler is
the idempotent one: repeating it changes nothing after the first call, and
it never changes the list length or the stored player ids (last three
conjuncts). -/
theorem c9_join_not_idempotent
    (l : Lobby) (req : JoinRequest) (freshUid uid : String)
    (hwaiting : l.status = "waiting") :
    ((join_lobby l req freshUid).2.players.length = l.players.length + 1) ∧
    ((join_lobby l req freshUid).2.players =
      l.players ++ [{ playerId := freshUid,
                      playerName := if req.playerName = "" then freshUid
                                    else req.playerName,
                      role := none, score := 0, isConnected := false,
                      guessCount := 0, hasGuessedCorrectly := false }]) ∧
    (on_lobby_join_update (on_lobby_join_update l uid) uid =
      on_lobby_join_update l uid) ∧
    ((on_lobby_join_update l uid).players.length = l.players.length) ∧
    ((on_lobby_join_update l uid).players.map (fun q => q.playerId) =
      l.players.map (fun q => q.playerId)) := by
  have hjoin : (join_lobby l req freshUid).2.players =
      l.players ++ [{ playerId := freshUid,
                      playerName := if req.playerName = "" then freshUid
                                    else req.playerName,
                      role := none, score := 0, isConnected := false,
                      guessCount := 0, hasGuessedCorrectly := false }] := by
    unfold join_lobby
    rw [if_neg (by simp [hwaiting])]
  refine ⟨by rw [hjoin]; simp, hjoin, ?_, ?_, ?_⟩
  · unfold on_lobby_join_update
    simp only
    rw [updateFirst_idem (isPlayerId uid) (setConnected true) l.players
      (fun x => rfl) (fun x => by simp [isPlayerId, setConnected])]
  · exact updateFirst_length _ _ _
  · exact map_updateFirst _ _ _ _ (fun x => rfl)

theorem c9_join_not_idempotent_witness :
    ((join_lobby (join_lobby c9lobby ⟨"Player", some "player123"⟩
        "AGENT_AAAA").2 ⟨"Player", some "player123"⟩
        "AGENT_BBBB").2.players.map (fun q => q.playerId) =
      ["player123", "AGENT_AAAA", "AGENT_BBBB"]) ∧
    (join_lobby c9lobby ⟨"Player", some "player123"⟩
      "AGENT_AAAA").2.players.length = c9lobby.players.length + 1 ∧
    on_lobby_join_update (on_lobby_join_update c9lobby "player123")
      "player123" = on_lobby_join_update c9lobby "player123" := by
  have h1 := c9_join_not_idempotent c9lobby ⟨"Player", some "player123"⟩
    "AGENT_AAAA" "player123" rfl
  exact ⟨by decide, h1.1, h1.2.2.1⟩

/-! ## C10: the local redaction fallback -/

theorem matchesAt_bound (w t : List Char) (i : ℕ) (hw : w ≠ [])
    (h : matchesAt w t i = true) : i + w.length ≤ t.length := by
  have hs : sliceEqCI w t i = true := by
    unfold matchesAt at h
    simp only [Bool.and_eq_true] at h
    exact h.1.1
  have hs2 : ((t.drop i).take w.length).map Char.toLower = w := by
    unfold sliceEqCI at hs
    exact of_decide_eq_true hs
  have hlen : min w.length (t.length - i) = w.length := by
    have := congrArg List.length hs2
    simpa [List.length_take, List.length_drop] using this
  have h1 : w.length ≤ t.length - i := min_eq_left_iff.mp hlen
  have h2 : 0 < w.length := List.length_pos.mpr hw
  omega

theorem redactFrom_of_no_match (ws : List (List Char)) (t : List Char)
    (h : ∀ i, ws.find? (fun w => matchesAt w t i) = none) :
    ∀ (fuel i : ℕ), t.length ≤ i + fuel → redactFrom ws t i fuel = t.drop i := by
  intro fuel
  induction fuel with
  | zero =>
    intro i hi
    rw [show redactFrom ws t i 0 = [] from rfl,
      List.drop_eq_nil_of_le (by omega)]
  | succ fuel ih =>
    intro i hi
    rw [redactFrom]
    by_cases hit : i < t.length
    · rw [if_pos hit, h i]
      dsimp only
      rw [ih (i + 1) (by omega), List.drop_eq_getElem_cons hit]
      congr 1
      simp [List.getD_eq_getElem?_getD, List.getElem?_eq_getElem hit]
    · rw [if_neg hit, List.drop_eq_nil_of_le (by omega)]

theorem redactFrom_hits_token (ws : List (List Char)) (t : List Char)
    (hwf : ∀ w ∈ ws, w ≠ []) :
    ∀ (fuel i : ℕ), t.length ≤ i + fuel →
      (∃ j w, i ≤ j ∧ w ∈ ws ∧ matchesAt w t j = true) →
      redactedToken <:+: redactFrom ws t i fuel := by
  intro fuel
  induction fuel with
  | zero =>
    intro i hi hex
    exfalso
    obtain ⟨j, w, hij, hmem, hmatch⟩ := hex
    have hb := matchesAt_bound w t j (hwf w hmem) hmatch
    have hw1 : 0 < w.length := List.length_pos.mpr (hwf w hmem)
    omega
  | succ fuel ih =>
    intro i hi hex
    obtain ⟨j, w, hij, hmem, hmatch⟩ := hex
    have hb := matchesAt_bound w t j (hwf w hmem) hmatch
    have hw1 : 0 < w.length := List.length_pos.mpr (hwf w hmem)
    have hit : i < t.length := by omega
    rw [redactFrom, if_pos hit]
    cases hfind : ws.find? (fun w => matchesAt w t i) with
    | some w1 =>
      dsimp only
      exact ⟨[], redactFrom ws t (i + w1.length) fuel, by simp⟩
    | none =>
      dsimp only
      have hji : i ≠ j := by
        intro heq
        subst heq
        have := List.find?_eq_none.mp hfind w hmem
        simp [hmatch] at this
      have htail : redactedToken <:+: redactFrom ws t (i + 1) fuel :=
        ih (i + 1) (by omega) ⟨j, w, by omega, hmem, hmatch⟩
      obtain ⟨s, u, hsu⟩ := htail
      exact ⟨t.getD i ' ' :: s, u, by simp [hsu]⟩

theorem patternWords_nonempty_words (forbidden : List String)
    (query : String) :
    ∀ w ∈ patternWords forbidden query, w ≠ [] := by
  intro w hw
  have := (List.mem_filter.mp hw).2
  intro hnil
  rw [hnil] at this
  simp at this

theorem stringMk_toList (s : String) : String.mk s.toList = s := rfl

/-- C10 (amended): the local redaction fallback substitutes left to right:
scanning each title and snippet from the left, whole-word case-insensitive
occurrences of the pattern terms — the forbidden terms and lowercased query
tokens longer than 2 characters — are replaced by [REDACTED], resuming
after each replacement, so an occurrence overlapping an earlier replacement
can survive partially; a field with no whole-word occurrence of any pattern
term is returned verbatim, a field with one contains [REDACTED] afterwards,
and when no forbidden term or query token exceeds 2 characters the result
list is returned completely unredacted. -/
theorem c10_simple_redaction
    (results : List SearchResult) (forbidden : List String) (query : String) :
    ((∀ w ∈ forbidden, w.length ≤ 2) →
     (∀ tok ∈ pySplit (lc query), tok.length ≤ 2) →
      simple_redaction results forbidden query = results) ∧
    (∀ s : String, hasMatch (patternWords forbidden query) s.toList = false →
      redactString (patternWords forbidden query) s = s) ∧
    (∀ s : String, hasMatch (patternWords forbidden query) s.toList = true →
      redactedToken <:+:
        (redactString (patternWords forbidden query) s).toList) ∧
    ((∀ r ∈ results,
        hasMatch (patternWords forbidden query) r.title.toList = false ∧
        hasMatch (patternWords forbidden query) r.snippet.toList = false) →
      simple_redaction results forbidden query = results) := by
  have hwf := patternWords_nonempty_words forbidden query
  have hsound : ∀ s : String,
      hasMatch (patternWords forbidden query) s.toList = false →
      redactString (patternWords forbidden query) s = s := by
    intro s hnom
    have hfind : ∀ i, (patternWords forbidden query).find?
        (fun w => matchesAt w s.toList i) = none := by
      intro i
      apply List.find?_eq_none.mpr
      intro w hw
      simp only [Bool.not_eq_true]
      by_contra hmat
      have hmat2 : matchesAt w s.toList i = true := by
        revert hmat
        cases matchesAt w s.toList i <;> simp
      have hbound := matchesAt_bound w s.toList i (hwf w hw) hmat2
      have hpos := List.length_pos.mpr (hwf w hw)
      have htrue : hasMatch (patternWords forbidden query) s.toList = true := by
        unfold hasMatch
        apply List.any_eq_true.mpr
        exact ⟨i, List.mem_range.mpr (by omega),
          List.any_eq_true.mpr ⟨w, hw, hmat2⟩⟩
      rw [hnom] at htrue
      exact Bool.false_ne_true htrue
    unfold redactString
    rw [redactFrom_of_no_match _ _ hfind (s.toList.length + 1) 0 (by omega)]
    simp [stringMk_toList]
  refine ⟨?_, hsound, ?_, ?_⟩
  · intro hshort htok
    have hempty : patternWords forbidden query = [] := by
      apply List.filter_eq_nil_iff.mpr
      intro w hw
      simp only [decide_eq_true_eq, not_lt]
      have hmem := List.dedup_subset _ hw
      rcases List.mem_append.mp hmem with h1 | h1
      · obtain ⟨w0, hw0, rfl⟩ := List.mem_map.mp h1
        have hlen : (lc w0).length = w0.length := by
          unfold lc
          rw [List.length_map]
          rfl
        rw [hlen]
        exact hshort w0 hw0
      · exact htok w h1
    unfold simple_redaction
    rw [hempty]
    rfl
  · intro s hmatch
    have hex : ∃ j w, 0 ≤ j ∧ w ∈ patternWords forbidden query ∧
        matchesAt w s.toList j = true := by
      obtain ⟨j, hjmem, hj⟩ := List.any_eq_true.mp
        (by unfold hasMatch at hmatch; exact hmatch)
      obtain ⟨w, hwmem, hw⟩ := List.any_eq_true.mp hj
      exact ⟨j, w, Nat.zero_le j, hwmem, hw⟩
    have := redactFrom_hits_token (patternWords forbidden query) s.toList
      hwf (s.toList.length + 1) 0 (by omega)
      (by
        obtain ⟨j, w, h0, hmem, hm⟩ := hex
        exact ⟨j, w, Nat.zero_le j, hmem, hm⟩)
    unfold redactString
    simpa using this
  · intro hall
    unfold simple_redaction
    by_cases hempty : (patternWords forbidden query).isEmpty
    · rw [if_pos hempty]
    · rw [if_neg hempty]
      induction results with
      | nil => rfl
      | cons r rest ih =>
        simp only [List.map_cons]
        have h1 := (hall r (by simp)).1
        have h2 := (hall r (by simp)).2
        rw [hsound r.title h1, hsound r.snippet h2]
        rw [ih (fun x hx => hall x (by simp [hx]))]

/-- C10 counterexample: with the forbidden terms "bc de" and "de fg" (both
longer than 2 characters) and the title "bc de fg", every character of the
title lies inside a whole-word occurrence of a pattern term, so an output
that replaced exactly those occurrences with [REDACTED] could contain no
letter f; the actual output is "[REDACTED] fg" — the scanner consumes
"bc de" first and the overlapping whole-word occurrence of "de fg"
survives partially unredacted, contradicting the claim's "replaces exactly
the whole-word occurrences". -/
theorem c10_redaction_counterexample :
    simple_redaction
        [{ title := "bc de fg", snippet := "x", link := "L",
           displayLink := "D" }] ["bc de", "de fg"] "zz"
      = [{ title := "[REDACTED] fg", snippet := "x", link := "L",
           displayLink := "D" }] ∧
    hasWholeWord (lc "de fg") (lc "bc de fg") = true ∧
    2 < ("de fg" : String).length ∧
    (List.range ("bc de fg" : String).toList.length).all
      (coveredByOcc (patternWords ["bc de", "de fg"] "zz")
        ("bc de fg" : String).toList) = true ∧
    'f' ∈ "[REDACTED] fg".toList ∧
    ('f' ∈ "[REDACTED]".toList) = False := by
  refine ⟨by decide, by decide, by decide, by decide, by decide, by decide⟩

theorem c10_simple_redaction_witness :
    simple_redaction [c10result] ["go", "is"] "" = [c10result] ∧
    redactString (patternWords ["bitcoin"] "") "Great guide" =
      "Great guide" ∧
    redactedToken <:+:
      (redactString (patternWords ["bitcoin"] "")
        "Learn about bitcoin").toList := by
  have h1 := c10_simple_redaction [c10result] ["go", "is"] ""
  have h2 := c10_simple_redaction [] ["bitcoin"] ""
  exact ⟨h1.1 (by decide) (by decide), h2.2.1 "Great guide" (by decide),
    h2.2.2.1 "Learn about bitcoin" (by decide)⟩

end Skibidi
